import Mathlib

/-!
Shallow embedding of the single-position paper-trading engine (`src/app.py`).

Conventions:
* Python floats are modelled as `ℚ`; timestamps (`datetime.now()`, the
  position's `exit_time`) as `ℕ` (minutes).
* Python truthiness is modelled explicitly: a cached price of `0` is falsy,
  exactly as `if not ltp:` treats it in the source.
* Fallible collaborators (the margin quote, the Google-Sheets ledger) are
  modelled as parameters: the quote is an `Option`-valued function, the
  ledger write is a boolean "did the call raise" flag.  A Python exception
  propagating out of a function is modelled by a `raised` result carrying
  the values the global variables hold at the moment of the raise (Python
  exceptions do not roll back assignments already performed).
-/

namespace GodsEye

/-! ### Configuration constants (`app.py` lines 29-36) -/

def LOT_SIZE : ℕ := 1
def SL_PCT : ℚ := 30 / 100
def TARGET_PCT : ℚ := 90 / 100
def TRAIL_SL_PCT : ℚ := 30 / 100
def MAX_TRADE_DURATION_MIN : ℕ := 15
def CHECK_INTERVAL_SEC : ℕ := 5
def NIFTY_TOKEN : ℕ := 256265

/-! ### Python `round` (banker's rounding, used by `round(nifty_ltp / 50)`
and the two-decimal rounding in the ledger rows) -/

/-- Python's built-in `round` to an integer: round half to even. -/
def pyRound (q : ℚ) : ℤ :=
  if q - ⌊q⌋ = 1 / 2 then (if 2 ∣ ⌊q⌋ then ⌊q⌋ else ⌊q⌋ + 1) else ⌊q + 1 / 2⌋

/-- Python's `round(x, 2)`: round to two decimal places, half to even. -/
def round2 (q : ℚ) : ℚ := (pyRound (q * 100) : ℚ) / 100

/-! ### Data model -/

/-- One row of the NFO instrument table kept by `load_instruments`
(columns used by `get_nearest_option`). -/
structure Contract where
  instrument_token : ℕ
  tradingsymbol : String
  strike : ℚ
  instrument_type : String
  expiry : ℕ
  lot_size : ℕ
  deriving DecidableEq, Repr

/-- The dict returned by `get_nearest_option`. -/
structure OptionSel where
  token : ℕ
  symbol : String
  strike : ℤ
  option : String
  lot_size : ℕ
  deriving DecidableEq, Repr

/-- The `open_position` dict built in `webhook` (lines 526-539). -/
structure Position where
  signal : String
  token : ℕ
  symbol : String
  strike : ℤ
  option : String
  entry_price : ℚ
  lot_size : ℕ
  margin : ℚ
  sl : ℚ
  target : ℚ
  exit_time : ℕ
  sheet_row : ℕ
  deriving DecidableEq, Repr

/-- A call made to the Google-Sheets ledger: `log_entry` appends a row,
`log_exit` fills the exit cells of an existing row.  We record the
arguments each call receives. -/
inductive LedgerEvent where
  | entryRow (row : ℕ) (signal : String) (strike : ℤ) (option : String)
      (symbol : String) (entry_price : ℚ) (margin : ℚ)
  | exitRow (row : ℕ) (exit_price : ℚ) (exit_margin : ℚ) (pnl : ℚ)
      (pnl_pct : ℚ) (reason : String)
  deriving DecidableEq, Repr

def LedgerEvent.isEntryRow : LedgerEvent → Bool
  | .entryRow .. => true
  | .exitRow .. => false

/-- Outcome of a code fragment that mutates the globals
`open_position` / ledger and may raise: `ok` is normal completion,
`raised` is a propagating Python exception, carrying the global state
at the moment of the raise. -/
inductive StepResult where
  | ok (pos? : Option Position) (log : List LedgerEvent)
  | raised (pos? : Option Position) (log : List LedgerEvent)
  deriving DecidableEq, Repr

def StepResult.slot : StepResult → Option Position
  | .ok p _ => p
  | .raised p _ => p

def StepResult.log : StepResult → List LedgerEvent
  | .ok _ l => l
  | .raised _ l => l

/-! ### `exit_trade` (`app.py` lines 296-323)

`quote symbol price lot` models `get_option_margin(symbol, price, lot)`,
which returns `None` on any failure.  `ledgerOk = false` models `log_exit`
raising (Sheets write failure); in that case `open_position = None`
(line 323) is never executed and the exception propagates. -/

def exit_trade (quote : String → ℚ → ℕ → Option ℚ) (ledgerOk : Bool)
    (reason : String) (exit_price : ℚ)
    (pos? : Option Position) (log : List LedgerEvent) : StepResult :=
  match pos? with
  | none => .ok none log
  | some pos =>
    let entry_margin := pos.margin
    let quoted := quote pos.symbol exit_price pos.lot_size
    -- `if not exit_margin:` — both `None` and `0` are falsy
    let exit_margin :=
      match quoted with
      | none => entry_margin
      | some m => if m = 0 then entry_margin else m
    let price_diff := exit_price - pos.entry_price
    let pnl := price_diff * (pos.lot_size : ℚ)
    let pnl_pct := if entry_margin ≠ 0 then pnl / entry_margin * 100 else 0
    if ledgerOk then
      .ok none
        (log ++ [.exitRow pos.sheet_row exit_price exit_margin pnl pnl_pct reason])
    else
      -- `log_exit` raised: the slot is NOT cleared
      .raised (some pos) log

/-! ### One monitor iteration (`monitor_position` body, lines 332-352)

The price read `ltp_cache.get(open_position["token"])` is a parameter
(the cache is filled concurrently by the tick thread).  The returned
`Option String` is the exit reason passed to `exit_trade`, `none` when
no exit branch is taken this tick. -/

def monitor_step (ltp? : Option ℚ) (now : ℕ) (quote : String → ℚ → ℕ → Option ℚ)
    (ledgerOk : Bool) (pos? : Option Position) (log : List LedgerEvent) :
    Option String × StepResult :=
  match pos? with
  | none => (none, .ok none log)
  | some pos =>
    match ltp? with
    | none => (none, .ok (some pos) log)
    | some ltp =>
      if ltp = 0 then (none, .ok (some pos) log)  -- `if not ltp: continue`
      else
        let new_sl := ltp * (1 - TRAIL_SL_PCT)
        let pos := if new_sl > pos.sl then { pos with sl := new_sl } else pos
        if pos.exit_time ≤ now then
          (some "TIME_EXIT", exit_trade quote ledgerOk "TIME_EXIT" ltp (some pos) log)
        else if ltp ≤ pos.sl then
          (some "SL_HIT", exit_trade quote ledgerOk "SL_HIT" ltp (some pos) log)
        else if pos.target ≤ ltp then
          (some "TARGET_HIT", exit_trade quote ledgerOk "TARGET_HIT" ltp (some pos) log)
        else (none, .ok (some pos) log)

/-- Inputs one monitor iteration reads from its environment. -/
structure MonInput where
  ltp? : Option ℚ
  now : ℕ
  quote : String → ℚ → ℕ → Option ℚ
  ledgerOk : Bool

/-- State of the monitor thread after running some iterations: `alive` if
the `while True:` loop is still running, `dead` if an uncaught exception
terminated the thread, with the number of scheduled iterations that were
never executed. -/
inductive RunState where
  | alive (pos? : Option Position) (log : List LedgerEvent)
  | dead (pos? : Option Position) (log : List LedgerEvent) (skipped : ℕ)
  deriving DecidableEq, Repr

def RunState.slot : RunState → Option Position
  | .alive p _ => p
  | .dead p _ _ => p

/-- The monitor loop (`while True:` at line 329): one `monitor_step` per
input; an exception escaping an iteration kills the daemon thread, so the
remaining inputs are never processed. -/
def run_monitor : List MonInput → Option Position → List LedgerEvent → RunState
  | [], pos?, log => .alive pos? log
  | i :: rest, pos?, log =>
    match (monitor_step i.ltp? i.now i.quote i.ledgerOk pos? log).2 with
    | .ok pos' log' => run_monitor rest pos' log'
    | .raised pos' log' => .dead pos' log' rest.length

/-! ### `get_nearest_option` (`app.py` lines 276-293)

`instruments` starts as `None` (line 218) and is filled by a background
thread; filtering `None` raises a `TypeError`, and `df.iloc[0]` on an
empty frame raises an `IndexError` — both modelled as `.error ()`.
`pandas.sort_values("expiry")` is modelled by a sort on the expiry
column (the source only uses the head of the sorted frame, so any
sorting algorithm is an equivalent model). -/

def get_nearest_option (instruments : Option (List Contract)) (today : ℕ)
    (nifty_ltp : ℚ) (option_type : String) : Except Unit OptionSel :=
  match instruments with
  | none => .error ()
  | some insts =>
    let atm : ℤ := pyRound (nifty_ltp / 50) * 50
    let df := insts.filter (fun c =>
      decide (today ≤ c.expiry) && decide (c.strike = (atm : ℚ)) &&
      decide (c.instrument_type = option_type))
    match df.insertionSort (fun a b => a.expiry ≤ b.expiry) with
    | [] => .error ()
    | opt :: _ =>
      .ok { token := opt.instrument_token, symbol := opt.tradingsymbol,
            strike := atm, option := option_type, lot_size := opt.lot_size }

/-! ### `KiteManager` subscription state (`app.py` lines 139-177)

Only the fields the subscription logic touches: `ws_connected` and
`pending_subscriptions`.  The Python `set` is modelled as a duplicate-free
list; `calls` records every `ws.subscribe([...])` issued to the transport,
in order, each with the token list it was given. -/

structure KMState where
  ws_connected : Bool
  pending : List ℕ
  deriving DecidableEq, Repr

/-- `KiteManager.subscribe` (lines 165-177): if connected, issue the
subscribe to the transport; else add to `pending_subscriptions`.
`if not token:` makes token `0` a no-op. -/
def km_subscribe (st : KMState) (token : ℕ) (calls : List (List ℕ)) :
    KMState × List (List ℕ) :=
  if token = 0 then (st, calls)
  else if st.ws_connected then (st, calls ++ [[token]])
  else ({ st with pending := if token ∈ st.pending then st.pending
                             else st.pending ++ [token] }, calls)

/-- `KiteManager.on_close` (lines 151-153): only the connected flag is
cleared. -/
def km_on_close (st : KMState) : KMState := { st with ws_connected := false }

/-- `KiteManager.on_connect` (lines 139-149): mark connected, subscribe the
NIFTY index, then — if any — subscribe the pending set in one call and
clear it. -/
def km_on_connect (st : KMState) (calls : List (List ℕ)) :
    KMState × List (List ℕ) :=
  let calls := calls ++ [[NIFTY_TOKEN]]
  if st.pending = [] then ({ st with ws_connected := true }, calls)
  else ({ ws_connected := true, pending := [] }, calls ++ [st.pending])

/-! ### The webhook handler (`app.py` lines 468-543)

Environment parameters stand for the reads the handler performs:
`cache` is the `ltp_cache` snapshot used for the NIFTY price and the
flip-exit price; `reads i` is the value `ltp_cache.get(opt["token"])`
returns on the `i`-th poll attempt; `quote` is `get_option_margin`;
`entryOk = false` models `log_entry` raising; `nextRow` is the row number
`log_entry` returns; `now`/`today` are the clock and date. -/

structure WebhookEnv where
  ready : Bool
  cache : ℕ → Option ℚ
  reads : ℕ → Option ℚ
  instruments : Option (List Contract)
  today : ℕ
  now : ℕ
  quote : String → ℚ → ℕ → Option ℚ
  ledgerOk : Bool
  entryOk : Bool
  nextRow : ℕ

/-- The HTTP responses `webhook` can produce (plus `raised` for an
exception escaping the handler body). -/
inductive WResult where
  | notReady                       -- 503 "Kite not connected..."
  | invalidSignal                  -- 400 "Invalid signal"
  | niftyUnavailable               -- 503 "NIFTY LTP not ready"
  | alreadyRunning                 -- 200 "Trade running"
  | optionLtpUnavailable           -- 503 "Option LTP not ready"
  | marginUnavailable              -- 503 "Margin not available"
  | entryOk (symbol : String) (row : ℕ)  -- 200 "ENTRY OK"
  | raised                         -- uncaught exception (Flask 500)
  deriving DecidableEq, Repr

/-- The mutable globals the webhook and monitor share under `lock`. -/
structure TradeState where
  open_position : Option Position
  last_signal : Option String
  deriving DecidableEq, Repr

/-- Signal-flip handling (`webhook` lines 485-488): if a position is open
and the new signal differs from `last_signal`, exit it at its cached
price; with no (truthy) cached price the flip is silently skipped. -/
def flip_step (cache : ℕ → Option ℚ) (quote : String → ℚ → ℕ → Option ℚ)
    (ledgerOk : Bool) (signal : String) (st : TradeState)
    (log : List LedgerEvent) : StepResult :=
  match st.open_position with
  | none => .ok none log
  | some pos =>
    if some signal ≠ st.last_signal then
      match cache pos.token with
      | none => .ok (some pos) log
      | some ltp =>
        if ltp = 0 then .ok (some pos) log
        else exit_trade quote ledgerOk "SIGNAL_FLIP" ltp (some pos) log
    else .ok (some pos) log

/-- The bounded entry-price poll (`webhook` lines 497-502): up to 30 reads
of the cache, sleeping 0.1s after each falsy read; returns the first
truthy price, `none` if all 30 attempts are falsy (`if not entry_price`). -/
def price_poll (reads : ℕ → Option ℚ) : ℕ → ℕ → Option ℚ
  | _, 0 => none
  | i, fuel + 1 =>
    match reads i with
    | some p => if p = 0 then price_poll reads (i + 1) fuel else some p
    | none => price_poll reads (i + 1) fuel

/-- The `/webhook` handler body (lines 468-543).  Returns the HTTP
result, the updated trade globals, the updated `KiteManager` state with
the transport subscribe calls issued, and the ledger calls made. -/
def webhook (env : WebhookEnv) (signal : String) (st : TradeState)
    (km : KMState) (log : List LedgerEvent) (calls : List (List ℕ)) :
    WResult × TradeState × KMState × List LedgerEvent × List (List ℕ) :=
  if env.ready = false then (.notReady, st, km, log, calls)
  else if ¬(signal = "BUY_CALL" ∨ signal = "BUY_PUT") then
    (.invalidSignal, st, km, log, calls)
  else
    match env.cache NIFTY_TOKEN with
    | none => (.niftyUnavailable, st, km, log, calls)
    | some nifty_ltp =>
      if nifty_ltp = 0 then (.niftyUnavailable, st, km, log, calls)
      else
        match flip_step env.cache env.quote env.ledgerOk signal st log with
        | .raised pos' log' =>
          (.raised, { st with open_position := pos' }, km, log', calls)
        | .ok pos' log' =>
          match pos' with
          | some p =>
            (.alreadyRunning, { st with open_position := some p }, km, log', calls)
          | none =>
            let st := { st with open_position := none }
            let option_type := if signal = "BUY_CALL" then "CE" else "PE"
            match get_nearest_option env.instruments env.today nifty_ltp option_type with
            | .error _ => (.raised, st, km, log', calls)
            | .ok opt =>
              let kmc := km_subscribe km opt.token calls
              let km := kmc.1
              let calls := kmc.2
              match price_poll env.reads 0 30 with
              | none => (.optionLtpUnavailable, st, km, log', calls)
              | some entry_price =>
                match env.quote opt.symbol entry_price opt.lot_size with
                | none => (.marginUnavailable, st, km, log', calls)
                | some margin_price =>
                  if margin_price = 0 then
                    (.marginUnavailable, st, km, log', calls)
                  else if env.entryOk = false then (.raised, st, km, log', calls)
                  else
                    let row := env.nextRow
                    let log'' := log' ++ [.entryRow row signal opt.strike
                      opt.option opt.symbol (round2 entry_price) margin_price]
                    let pos : Position :=
                      { signal := signal, token := opt.token,
                        symbol := opt.symbol, strike := opt.strike,
                        option := opt.option, entry_price := entry_price,
                        lot_size := opt.lot_size, margin := margin_price,
                        sl := entry_price * (1 - SL_PCT),
                        target := entry_price * (1 + TARGET_PCT),
                        exit_time := env.now + MAX_TRADE_DURATION_MIN,
                        sheet_row := row }
                    (.entryOk opt.symbol row,
                     { open_position := some pos, last_signal := some signal },
                     km, log'', calls)

/-! ### Lock-discipline trace of the webhook

`webhook` acquires the shared `lock` (line 479) and every statement up to
the handler's return — including the `time.sleep(0.1)` calls of the entry
price poll — executes inside the `with lock:` block.  The trace records
each action as `(name, lockHeld)`; the `with` statement releases the lock
on every path out, normal or raising. -/

def poll_trace (reads : ℕ → Option ℚ) : ℕ → ℕ → List (String × Bool)
  | _, 0 => []
  | i, fuel + 1 =>
    match reads i with
    | some p =>
      if p = 0 then
        ("poll_read", true) :: ("poll_sleep", true) :: poll_trace reads (i + 1) fuel
      else [("poll_read", true)]
    | none =>
      ("poll_read", true) :: ("poll_sleep", true) :: poll_trace reads (i + 1) fuel

def webhook_locked_trace (env : WebhookEnv) (signal : String)
    (st : TradeState) (log : List LedgerEvent) : List (String × Bool) :=
  ("read_nifty", true) ::
  match env.cache NIFTY_TOKEN with
  | none => []
  | some nifty_ltp =>
    if nifty_ltp = 0 then []
    else
      ("flip_handling", true) ::
      match flip_step env.cache env.quote env.ledgerOk signal st log with
      | .raised _ _ => []
      | .ok pos' _ =>
        match pos' with
        | some _ => []
        | none =>
          ("select_option", true) ::
          match get_nearest_option env.instruments env.today nifty_ltp
              (if signal = "BUY_CALL" then "CE" else "PE") with
          | .error _ => []
          | .ok opt =>
            ("subscribe", true) ::
            (poll_trace env.reads 0 30 ++
             match price_poll env.reads 0 30 with
             | none => []
             | some entry_price =>
               ("quote_margin", true) ::
               match env.quote opt.symbol entry_price opt.lot_size with
               | none => []
               | some m =>
                 if m = 0 then []
                 else if env.entryOk = false then [("log_entry", true)]
                 else [("log_entry", true), ("store_position", true)])

def webhook_trace (env : WebhookEnv) (signal : String) (st : TradeState)
    (log : List LedgerEvent) : List (String × Bool) :=
  if env.ready = false then [("check_ready", false)]
  else if ¬(signal = "BUY_CALL" ∨ signal = "BUY_PUT") then
    [("check_ready", false), ("check_signal", false)]
  else
    ("check_ready", false) :: ("check_signal", false) :: ("acquire_lock", true) ::
      (webhook_locked_trace env signal st log ++ [("release_lock", true)])

/-! ### Spec-side exit priority (for the refinement statement of the
monitor's exit decision) -/

/-- Follows the spec's words (§4.4 `evaluate_exit` step 3): "time-based
exit first (if `now >= expiry_deadline`, exit reason `TIME_EXIT`, evaluate
nothing else this tick), else stop-loss (`price <= stop`, reason
`SL_HIT`), else target (`price >= target`, reason `TARGET_HIT`)". -/
def specExitReason (now deadline : ℕ) (price stop target : ℚ) : Option String :=
  if deadline ≤ now then some "TIME_EXIT"
  else if price ≤ stop then some "SL_HIT"
  else if target ≤ price then some "TARGET_HIT"
  else none

/-! ### Concrete sample data (used by witnesses and counterexamples) -/

def samplePos : Position :=
  { signal := "BUY_CALL", token := 11, symbol := "OPT1", strike := 24000,
    option := "CE", entry_price := 100, lot_size := 1, margin := 50,
    sl := 70, target := 190, exit_time := 10, sheet_row := 2 }

def sampleContractA : Contract :=
  { instrument_token := 77, tradingsymbol := "OPTA",
    strike := 24000, instrument_type := "CE", expiry := 120, lot_size := 75 }

def sampleContractB : Contract :=
  { instrument_token := 78, tradingsymbol := "OPTB",
    strike := 24000, instrument_type := "CE", expiry := 110, lot_size := 75 }

def sampleInsts : List Contract := [sampleContractA, sampleContractB]

def sampleSel : OptionSel :=
  { token := 78, symbol := "OPTB", strike := 24000, option := "CE", lot_size := 75 }

def noQuote : String → ℚ → ℕ → Option ℚ := fun _ _ _ => none

def sampleEnv : WebhookEnv :=
  { ready := true,
    cache := fun t => if t = NIFTY_TOKEN then some 24000 else none,
    reads := fun i => if i < 2 then none else some 100,
    instruments := some sampleInsts,
    today := 100, now := 5,
    quote := noQuote,
    ledgerOk := true, entryOk := true, nextRow := 7 }

/-! ### Helper lemmas -/

/-- `pyRound q` is a nearest integer to `q`: no integer is strictly
closer. -/
theorem pyRound_nearest (q : ℚ) (k : ℤ) :
    |(pyRound q : ℚ) - q| ≤ |(k : ℚ) - q| := by
  have hfl : ((⌊q⌋ : ℚ)) ≤ q := Int.floor_le q
  have hfl2 : q < (⌊q⌋ : ℚ) + 1 := Int.lt_floor_add_one q
  unfold pyRound
  by_cases h : q - (⌊q⌋ : ℚ) = 1 / 2
  · have hhalf : ∀ j : ℤ, (1 : ℚ) / 2 ≤ |(j : ℚ) - q| := by
      intro j
      rcases le_or_lt j ⌊q⌋ with hj | hj
      · refine le_abs.mpr (Or.inr ?_)
        have : (j : ℚ) ≤ (⌊q⌋ : ℚ) := by exact_mod_cast hj
        linarith
      · refine le_abs.mpr (Or.inl ?_)
        have : ((⌊q⌋ : ℚ) + 1) ≤ (j : ℚ) := by exact_mod_cast hj
        linarith
    rw [if_pos h]
    by_cases h2 : (2 : ℤ) ∣ ⌊q⌋
    · rw [if_pos h2]
      have he : |((⌊q⌋ : ℚ)) - q| = 1 / 2 := by
        rw [show ((⌊q⌋ : ℚ)) - q = -(1 / 2) by linarith, abs_neg]
        norm_num
      rw [he]
      exact hhalf k
    · rw [if_neg h2]
      have he : |(((⌊q⌋ + 1 : ℤ)) : ℚ) - q| = 1 / 2 := by
        push_cast
        rw [show ((⌊q⌋ : ℚ)) + 1 - q = 1 / 2 by linarith]
        norm_num
      rw [he]
      exact hhalf k
  · rw [if_neg h]
    have hr1 : ((⌊q + 1 / 2⌋ : ℚ)) ≤ q + 1 / 2 := Int.floor_le _
    have hr2 : q + 1 / 2 < (⌊q + 1 / 2⌋ : ℚ) + 1 := Int.lt_floor_add_one _
    have hne : ((⌊q + 1 / 2⌋ : ℚ)) ≠ q + 1 / 2 := by
      intro heq
      apply h
      have hfq : ⌊q⌋ = ⌊q + 1 / 2⌋ - 1 := by
        rw [Int.floor_eq_iff]
        constructor
        · push_cast
          linarith
        · push_cast
          linarith
      rw [hfq]
      push_cast
      linarith
    have habs : |((⌊q + 1 / 2⌋ : ℚ)) - q| < 1 / 2 := by
      rw [abs_lt]
      refine ⟨by linarith, ?_⟩
      rcases lt_or_eq_of_le hr1 with hlt | heq
      · linarith
      · exact absurd heq hne
    rcases eq_or_ne k ⌊q + 1 / 2⌋ with hk | hk
    · rw [hk]
    · have h1 : (1 : ℚ) ≤ |(k : ℚ) - ((⌊q + 1 / 2⌋ : ℚ))| := by
        have hz : k - ⌊q + 1 / 2⌋ ≠ 0 := sub_ne_zero.mpr hk
        have h2 : (1 : ℤ) ≤ |k - ⌊q + 1 / 2⌋| := Int.one_le_abs hz
        have h3 : ((|k - ⌊q + 1 / 2⌋| : ℤ) : ℚ) = |(k : ℚ) - ((⌊q + 1 / 2⌋ : ℚ))| := by
          push_cast
          ring_nf
        calc (1 : ℚ) ≤ ((|k - ⌊q + 1 / 2⌋| : ℤ) : ℚ) := by exact_mod_cast h2
          _ = |(k : ℚ) - ((⌊q + 1 / 2⌋ : ℚ))| := h3
      have htri : |(k : ℚ) - ((⌊q + 1 / 2⌋ : ℚ))| ≤
          |(k : ℚ) - q| + |q - ((⌊q + 1 / 2⌋ : ℚ))| := abs_sub_le _ _ _
      rw [abs_sub_comm q] at htri
      linarith

/-- The head of the expiry-sorted list is a member with minimal expiry. -/
theorem sorted_head_min_expiry (l : List Contract) (c : Contract)
    (rest : List Contract)
    (h : l.insertionSort (fun a b => a.expiry ≤ b.expiry) = c :: rest) :
    c ∈ l ∧ ∀ d ∈ l, c.expiry ≤ d.expiry := by
  haveI : IsTotal Contract (fun a b => a.expiry ≤ b.expiry) :=
    ⟨fun a b => Nat.le_total _ _⟩
  haveI : IsTrans Contract (fun a b => a.expiry ≤ b.expiry) :=
    ⟨fun _ _ _ => Nat.le_trans⟩
  have hperm := List.perm_insertionSort (fun a b : Contract => a.expiry ≤ b.expiry) l
  rw [h] at hperm
  have hsorted := List.sorted_insertionSort (fun a b : Contract => a.expiry ≤ b.expiry) l
  rw [h] at hsorted
  refine ⟨hperm.mem_iff.mp (List.mem_cons_self c rest), ?_⟩
  intro d hd
  rcases List.mem_cons.mp (hperm.mem_iff.mpr hd) with rfl | hd'
  · exact le_refl _
  · exact List.rel_of_sorted_cons hsorted d hd'

/-- `log_exit` never appends an entry row: `exit_trade` preserves the
entry rows of the ledger. -/
theorem exit_trade_entryRows (quote : String → ℚ → ℕ → Option ℚ) (lok : Bool)
    (reason : String) (p : ℚ) (pos? : Option Position)
    (log : List LedgerEvent) :
    ((exit_trade quote lok reason p pos? log).log).filter LedgerEvent.isEntryRow =
      log.filter LedgerEvent.isEntryRow := by
  unfold exit_trade
  cases pos? with
  | none => rfl
  | some pos =>
    cases lok with
    | true => simp [StepResult.log, List.filter_append, LedgerEvent.isEntryRow]
    | false => rfl

/-- Signal-flip handling never appends an entry row. -/
theorem flip_step_entryRows (cache : ℕ → Option ℚ)
    (quote : String → ℚ → ℕ → Option ℚ) (lok : Bool) (signal : String)
    (st : TradeState) (log : List LedgerEvent) :
    ((flip_step cache quote lok signal st log).log).filter LedgerEvent.isEntryRow =
      log.filter LedgerEvent.isEntryRow := by
  unfold flip_step
  cases st.open_position with
  | none => rfl
  | some pos =>
    dsimp only
    by_cases hs : some signal ≠ st.last_signal
    · rw [if_pos hs]
      cases hc : cache pos.token with
      | none => rfl
      | some ltp =>
        dsimp only
        by_cases h0 : ltp = 0
        · rw [if_pos h0]
          rfl
        · rw [if_neg h0]
          exact exit_trade_entryRows quote lok "SIGNAL_FLIP" ltp (some pos) log
    · rw [if_neg hs]
      rfl

/-- With a failing ledger write, `exit_trade` raises and the slot keeps
the position. -/
theorem exit_trade_raised (quote : String → ℚ → ℕ → Option ℚ) (reason : String)
    (p : ℚ) (pos : Position) (log : List LedgerEvent) :
    exit_trade quote false reason p (some pos) log = .raised (some pos) log := rfl

/-- With a succeeding ledger write, `exit_trade` clears the slot. -/
theorem exit_trade_cleared (quote : String → ℚ → ℕ → Option ℚ) (reason : String)
    (p : ℚ) (pos : Position) (log : List LedgerEvent) :
    (exit_trade quote true reason p (some pos) log).slot = none := rfl

/-- One monitor iteration can only raise the stop of the open position:
whenever a position is still stored afterwards, its stop is at least the
old one. -/
theorem monitor_step_sl (ltp? : Option ℚ) (now : ℕ)
    (quote : String → ℚ → ℕ → Option ℚ) (lok : Bool) (pos : Position)
    (log : List LedgerEvent) (q : Position)
    (h : ((monitor_step ltp? now quote lok (some pos) log).2).slot = some q) :
    pos.sl ≤ q.sl := by
  unfold monitor_step at h
  cases ltp? with
  | none =>
    simp only [StepResult.slot, Option.some.injEq] at h
    rw [← h]
  | some ltp =>
    dsimp only at h
    by_cases h0 : ltp = 0
    · rw [if_pos h0] at h
      simp only [StepResult.slot, Option.some.injEq] at h
      rw [← h]
    · rw [if_neg h0] at h
      have hsl : pos.sl ≤
          (if ltp * (1 - TRAIL_SL_PCT) > pos.sl
            then { pos with sl := ltp * (1 - TRAIL_SL_PCT) } else pos).sl := by
        by_cases hr : ltp * (1 - TRAIL_SL_PCT) > pos.sl
        · rw [if_pos hr]
          exact le_of_lt hr
        · rw [if_neg hr]
      set pos' := (if ltp * (1 - TRAIL_SL_PCT) > pos.sl
        then { pos with sl := ltp * (1 - TRAIL_SL_PCT) } else pos) with hpos'
      have hexit : ∀ reason : String,
          ((exit_trade quote lok reason ltp (some pos') log).slot) = some q →
          pos.sl ≤ q.sl := by
        intro reason hq
        cases lok with
        | true =>
          rw [exit_trade_cleared] at hq
          exact absurd hq (by simp)
        | false =>
          rw [exit_trade_raised] at hq
          simp only [StepResult.slot, Option.some.injEq] at hq
          rw [← hq]
          exact hsl
      split at h
      · exact hexit _ h
      · split at h
        · exact hexit _ h
        · split at h
          · exact hexit _ h
          · simp only [StepResult.slot, Option.some.injEq] at h
            rw [← h]
            exact hsl

/-- Once the position slot is empty, the monitor loop never refills it. -/
theorem run_monitor_none_slot (inputs : List MonInput) (log : List LedgerEvent) :
    (run_monitor inputs none log).slot = none := by
  induction inputs generalizing log with
  | nil => rfl
  | cons i rest ih =>
    rw [run_monitor]
    exact ih log

/-- Evaluation of one concrete monitor iteration that takes no exit
(price 100, stop 70, target 190, before the deadline; the candidate stop
`100 * 0.7 = 70` is not strictly greater, so the stop is kept). -/
theorem monitor_step_sample_hold :
    monitor_step (some 100) 5 noQuote true (some samplePos) [] =
      (none, .ok (some samplePos) []) := by
  unfold monitor_step
  dsimp only
  rw [if_neg (show ¬(100 : ℚ) = 0 by norm_num)]
  rw [if_neg (show ¬(100 : ℚ) * (1 - TRAIL_SL_PCT) > samplePos.sl by
    norm_num [TRAIL_SL_PCT, samplePos])]
  rw [if_neg (show ¬samplePos.exit_time ≤ 5 by norm_num [samplePos])]
  rw [if_neg (show ¬(100 : ℚ) ≤ samplePos.sl by norm_num [samplePos])]
  rw [if_neg (show ¬samplePos.target ≤ (100 : ℚ) by norm_num [samplePos])]

/-- Evaluation of one concrete monitor iteration where the stop-loss
fires (price 60 on a stop of 70, before the deadline) and the ledger
write fails. -/
theorem monitor_step_sample_slhit :
    monitor_step (some 60) 5 noQuote false (some samplePos) [] =
      (some "SL_HIT", .raised (some samplePos) []) := by
  unfold monitor_step
  dsimp only
  rw [if_neg (show ¬(60 : ℚ) = 0 by norm_num)]
  rw [if_neg (show ¬(60 : ℚ) * (1 - TRAIL_SL_PCT) > samplePos.sl by
    norm_num [TRAIL_SL_PCT, samplePos])]
  rw [if_neg (show ¬samplePos.exit_time ≤ 5 by norm_num [samplePos])]
  rw [if_pos (show (60 : ℚ) ≤ samplePos.sl by norm_num [samplePos])]
  rw [exit_trade_raised]

/-- C3: across any sequence of monitor iterations (`evaluate_exit` calls)
on one open position, the stored `stop_loss_price` never decreases: each
call computes the candidate stop `price * (1 - TRAIL_SL_PCT)` and replaces
the stored stop only when the candidate is strictly greater, so whenever
the position is still stored after the run, its stop is at least the
initial one. -/
theorem c3_trailing_stop_monotone (inputs : List MonInput) (pos q : Position)
    (log : List LedgerEvent)
    (h : (run_monitor inputs (some pos) log).slot = some q) :
    pos.sl ≤ q.sl := by
  induction inputs generalizing pos log with
  | nil =>
    simp only [run_monitor, RunState.slot, Option.some.injEq] at h
    rw [← h]
  | cons i rest ih =>
    rw [run_monitor] at h
    cases hstep : (monitor_step i.ltp? i.now i.quote i.ledgerOk (some pos) log).2 with
    | ok pos' log' =>
      rw [hstep] at h
      dsimp only at h
      cases pos' with
      | none =>
        rw [run_monitor_none_slot rest log'] at h
        exact absurd h (by simp)
      | some p' =>
        have h1 : pos.sl ≤ p'.sl :=
          monitor_step_sl i.ltp? i.now i.quote i.ledgerOk pos log p'
            (by rw [hstep]; rfl)
        exact le_trans h1 (ih p' log' h)
    | raised pos' log' =>
      rw [hstep] at h
      dsimp only [RunState.slot] at h
      exact monitor_step_sl i.ltp? i.now i.quote i.ledgerOk pos log q
        (by rw [hstep]; rw [StepResult.slot]; exact h)

/-- Witness for C3: a concrete one-iteration run (price 100 on a stop of
70: candidate stop is exactly 70, not strictly greater, so the stop is
kept) in which the final stop is no smaller than the initial one. -/
theorem c3_trailing_stop_monotone_witness :
    (run_monitor [⟨some 100, 5, noQuote, true⟩] (some samplePos) []).slot =
      some samplePos ∧ samplePos.sl ≤ samplePos.sl :=
  ⟨by rw [run_monitor]; dsimp only; rw [monitor_step_sample_hold]; rfl,
   c3_trailing_stop_monotone [⟨some 100, 5, noQuote, true⟩] samplePos samplePos []
    (by rw [run_monitor]; dsimp only; rw [monitor_step_sample_hold]; rfl)⟩

/-- C1 as stated is false on the code: with a cached price of `0` the
monitor treats the position as unpriced (`if not ltp: continue`) and
fires no exit even though `now >= expiry_deadline`, where the claimed
priority order demands `TIME_EXIT`. -/
theorem c1_counterexample :
    (monitor_step (some 0) 20 noQuote true (some samplePos) []).1 = none ∧
    specExitReason 20 samplePos.exit_time 0
      (max samplePos.sl (0 * (1 - TRAIL_SL_PCT))) samplePos.target =
      some "TIME_EXIT" := by
  constructor
  · unfold monitor_step
    dsimp only
    rw [if_pos (show (0 : ℚ) = 0 from rfl)]
  · unfold specExitReason
    rw [if_pos (show samplePos.exit_time ≤ 20 by norm_num [samplePos])]

/-- C1 (amended): on an open position with a cached NONZERO price, the
fired exit reason is exactly the spec's priority chain — `TIME_EXIT` if
`now >= expiry_deadline` (stop and target are then not evaluated), else
`SL_HIT` if `price <= stop` (the ratcheted stop), else `TARGET_HIT` if
`price >= target`; at most one reason fires. -/
theorem c1_exit_priority (pos : Position) (ltp : ℚ) (now : ℕ)
    (quote : String → ℚ → ℕ → Option ℚ) (lok : Bool) (log : List LedgerEvent)
    (h : ltp ≠ 0) :
    (monitor_step (some ltp) now quote lok (some pos) log).1 =
      specExitReason now pos.exit_time ltp
        (max pos.sl (ltp * (1 - TRAIL_SL_PCT))) pos.target := by
  unfold monitor_step specExitReason
  dsimp only
  rw [if_neg h]
  by_cases hr : ltp * (1 - TRAIL_SL_PCT) > pos.sl
  · rw [if_pos hr, max_eq_right (le_of_lt hr)]
    split_ifs <;> rfl
  · rw [if_neg hr, max_eq_left (le_of_not_lt hr)]
    split_ifs <;> rfl

/-- Witness for C1 (amended): price 60 on a stop of 70 before the
deadline fires `SL_HIT`. -/
theorem c1_exit_priority_witness :
    (60 : ℚ) ≠ 0 ∧
    (monitor_step (some 60) 5 noQuote true (some samplePos) []).1 =
      specExitReason 5 samplePos.exit_time 60
        (max samplePos.sl (60 * (1 - TRAIL_SL_PCT))) samplePos.target :=
  ⟨by norm_num, c1_exit_priority samplePos 60 5 noQuote true [] (by norm_num)⟩

/-- C2 as stated is false on the code: at a concrete tick where the
stop-loss fires and the ledger exit write raises, `exit_trade` raises
before `open_position = None` runs, so the slot still holds the position,
and the escaping exception kills the monitor loop, skipping the remaining
iteration. -/
theorem c2_counterexample :
    (monitor_step (some 60) 5 noQuote false (some samplePos) []).2 =
      .raised (some samplePos) [] ∧
    run_monitor [⟨some 60, 5, noQuote, false⟩, ⟨some 60, 6, noQuote, true⟩]
      (some samplePos) [] = .dead (some samplePos) [] 1 := by
  constructor
  · rw [monitor_step_sample_slhit]
  · rw [run_monitor]
    dsimp only
    rw [monitor_step_sample_slhit]
    rfl

/-- C2 (amended): a failure of the ledger exit write DOES prevent the
in-memory slot from being cleared — whenever an exit reason fires and
`log_exit` raises, the iteration ends with the position still stored and
the monitor loop dies, so every remaining iteration is skipped. -/
theorem c2_ledger_failure_keeps_position (pos : Position) (i : MonInput)
    (rest : List MonInput) (log : List LedgerEvent) (r : String)
    (hlok : i.ledgerOk = false)
    (hfired : (monitor_step i.ltp? i.now i.quote i.ledgerOk (some pos) log).1 =
      some r) :
    ∃ q : Position,
      (monitor_step i.ltp? i.now i.quote i.ledgerOk (some pos) log).2 =
        .raised (some q) log ∧
      run_monitor (i :: rest) (some pos) log = .dead (some q) log rest.length := by
  cases hltp : i.ltp? with
  | none =>
    rw [hlok] at hfired
    unfold monitor_step at hfired
    rw [hltp] at hfired
    exact absurd hfired (by simp)
  | some ltp =>
    by_cases h0 : ltp = 0
    · exfalso
      rw [hlok] at hfired
      unfold monitor_step at hfired
      rw [hltp] at hfired
      dsimp only at hfired
      rw [if_pos h0] at hfired
      simp at hfired
    · set pos' := (if ltp * (1 - TRAIL_SL_PCT) > pos.sl
        then { pos with sl := ltp * (1 - TRAIL_SL_PCT) } else pos) with hpos'
      have hnone : ¬pos'.exit_time ≤ i.now → ¬ltp ≤ pos'.sl →
          ¬pos'.target ≤ ltp → False := by
        intro hc1 hc2 hc3
        rw [hlok] at hfired
        unfold monitor_step at hfired
        rw [hltp] at hfired
        dsimp only at hfired
        rw [if_neg h0, ← hpos', if_neg hc1, if_neg hc2, if_neg hc3] at hfired
        simp at hfired
      have hstep2 : (monitor_step (some ltp) i.now i.quote i.ledgerOk (some pos) log).2 =
          .raised (some pos') log := by
        rw [hlok]
        unfold monitor_step
        dsimp only
        rw [if_neg h0, ← hpos']
        split_ifs with hc1 hc2 hc3
        · rfl
        · rfl
        · rfl
        · exact (hnone hc1 hc2 hc3).elim
      refine ⟨pos', hstep2, ?_⟩
      rw [run_monitor, hltp, hstep2]

/-- Witness for C2 (amended): the concrete stop-loss tick with a failing
ledger write. -/
theorem c2_ledger_failure_keeps_position_witness :
    ∃ q : Position,
      (monitor_step (some 60) 5 noQuote false (some samplePos) []).2 =
        .raised (some q) [] ∧
      run_monitor [⟨some 60, 5, noQuote, false⟩, ⟨some 60, 6, noQuote, true⟩]
        (some samplePos) [] = .dead (some q) [] 1 :=
  c2_ledger_failure_keeps_position samplePos ⟨some 60, 5, noQuote, false⟩
    [⟨some 60, 6, noQuote, true⟩] [] "SL_HIT" rfl
    (by rw [monitor_step_sample_slhit])

/-- C5 as stated is false on the code: token `111` is actively subscribed
(a transport subscribe call `[111]` was issued while connected), but after
the disconnect the pending set is still empty — the active id was NOT
moved back to pending — and the subscribe call issued on the next connect
covers only the mandatory index, not `111`. -/
theorem c5_counterexample :
    (km_subscribe ⟨true, []⟩ 111 []).2 = [[111]] ∧
    (km_on_close (km_subscribe ⟨true, []⟩ 111 []).1).pending = [] ∧
    km_on_connect (km_on_close (km_subscribe ⟨true, []⟩ 111 []).1)
        (km_subscribe ⟨true, []⟩ 111 []).2 =
      (⟨true, []⟩, [[111], [NIFTY_TOKEN]]) ∧
    (111 : ℕ) ∉ [NIFTY_TOKEN] := by
  decide

/-- C5 (amended): a disconnect only clears the connected flag — ids
subscribed while connected never enter the pending set and are dropped;
on connect one subscribe call is issued for the mandatory index and, when
the pending set is nonempty, one further call for exactly the pending
ids, after which the pending set is empty. -/
theorem c5_reconnect_behavior (st : KMState) (t : ℕ) (calls : List (List ℕ)) :
    (km_subscribe { st with ws_connected := true } t calls).1.pending = st.pending ∧
    km_on_close st = { st with ws_connected := false } ∧
    km_on_connect st calls =
      ({ ws_connected := true, pending := [] },
       calls ++ [[NIFTY_TOKEN]] ++
         if st.pending = [] then [] else [st.pending]) := by
  refine ⟨?_, rfl, ?_⟩
  · unfold km_subscribe
    dsimp only
    split_ifs with h1 h2 <;> first | rfl | exact absurd rfl h2
  · unfold km_on_connect
    rcases st with ⟨c, p⟩
    dsimp only
    by_cases hp : p = []
    · subst hp
      rw [if_pos rfl, if_pos rfl]
      simp
    · rw [if_neg hp, if_neg hp]

/-- A margin quote service that answers with the value `0`. -/
def zeroQuote : String → ℚ → ℕ → Option ℚ := fun _ _ _ => some 0

/-- C8 as stated is false on the code: at a concrete exit where the quote
service ANSWERS with the value `0` (it did not fail), `if not
exit_margin:` treats the answer as falsy and the exit row records the
entry margin `50` instead of the requoted `0` — the exit margin is not
the requoted value even though the service answered. -/
theorem c8_counterexample :
    zeroQuote samplePos.symbol 60 samplePos.lot_size = some 0 ∧
    exit_trade zeroQuote true "SL_HIT" 60 (some samplePos) [] =
      .ok none [.exitRow samplePos.sheet_row 60 50 (-40) (-80) "SL_HIT"] ∧
    (50 : ℚ) ≠ 0 := by
  refine ⟨rfl, ?_, by norm_num⟩
  unfold exit_trade zeroQuote
  dsimp only
  rw [if_pos (show (0 : ℚ) = 0 from rfl)]
  rw [if_pos (show samplePos.margin ≠ 0 by norm_num [samplePos])]
  norm_num [samplePos]

/-- C8 (amended): on every exit of an open position at exit price `p`
with a succeeding ledger write, one exit row is written under the
position's stored row identifier with
`pnl = (p - entry_price) * quantity` and
`pnl_pct = pnl / entry_margin * 100` when the entry margin is nonzero
and `0` otherwise; its exit margin is the value requoted at `p` when the
quote service answers a nonzero value, and falls back to the stored
entry margin when the quote service fails OR answers exactly `0` (the
answer is falsy to `if not exit_margin:`). -/
theorem c8_exit_accounting (pos : Position) (p : ℚ) (log : List LedgerEvent)
    (reason : String) (quote : String → ℚ → ℕ → Option ℚ) :
    ∃ em : ℚ,
      exit_trade quote true reason p (some pos) log =
        .ok none (log ++ [.exitRow pos.sheet_row p em
          ((p - pos.entry_price) * (pos.lot_size : ℚ))
          (if pos.margin ≠ 0
            then (p - pos.entry_price) * (pos.lot_size : ℚ) / pos.margin * 100
            else 0)
          reason]) ∧
      (∀ m : ℚ, quote pos.symbol p pos.lot_size = some m → m ≠ 0 → em = m) ∧
      ((quote pos.symbol p pos.lot_size = none ∨
        quote pos.symbol p pos.lot_size = some 0) → em = pos.margin) := by
  cases hq : quote pos.symbol p pos.lot_size with
  | none =>
    refine ⟨pos.margin, ?_, ?_, fun _ => rfl⟩
    · unfold exit_trade
      dsimp only
      rw [hq]
      rfl
    · intro m hm hm0
      exact absurd hm (by simp)
  | some m0 =>
    by_cases h0 : m0 = 0
    · subst h0
      refine ⟨pos.margin, ?_, ?_, fun _ => rfl⟩
      · unfold exit_trade
        dsimp only
        rw [hq]
        dsimp only
        rw [if_pos rfl]
        rfl
      · intro m hm hm0
        simp only [Option.some.injEq] at hm
        exact absurd hm.symm hm0
    · refine ⟨m0, ?_, ?_, ?_⟩
      · unfold exit_trade
        dsimp only
        rw [hq]
        dsimp only
        rw [if_neg h0]
        rfl
      · intro m hm hm0
        simp only [Option.some.injEq] at hm
        exact hm
      · intro hc
        rcases hc with hc | hc
        · exact absurd hc (by simp)
        · simp only [Option.some.injEq] at hc
          exact absurd hc h0

/-- Witness for C8 (amended): the theorem applied to a concrete exit at
price 60 with a failing quote service; the fallback clause forces the
exit margin to the entry margin. -/
theorem c8_exit_accounting_witness :
    ∃ em : ℚ,
      exit_trade noQuote true "SL_HIT" 60 (some samplePos) [] =
        .ok none ([] ++ [.exitRow samplePos.sheet_row 60 em
          ((60 - samplePos.entry_price) * (samplePos.lot_size : ℚ))
          (if samplePos.margin ≠ 0
            then (60 - samplePos.entry_price) * (samplePos.lot_size : ℚ) /
              samplePos.margin * 100
            else 0)
          "SL_HIT"]) ∧
      (∀ m : ℚ, noQuote samplePos.symbol 60 samplePos.lot_size = some m →
        m ≠ 0 → em = m) ∧
      ((noQuote samplePos.symbol 60 samplePos.lot_size = none ∨
        noQuote samplePos.symbol 60 samplePos.lot_size = some 0) →
        em = samplePos.margin) :=
  c8_exit_accounting samplePos 60 [] "SL_HIT" noQuote

/-- C4: a webhook call made while a position is open that leaves the
position open after flip handling — same-direction signal, or no (truthy)
cached price for the position's instrument — returns `AlreadyRunning`
and changes nothing: no new position, no ledger write, trade state,
subscription state and ledger unchanged. -/
theorem c4_already_running (env : WebhookEnv) (signal : String)
    (op : Option Position) (ls : Option String) (km : KMState)
    (log : List LedgerEvent) (calls : List (List ℕ)) (pos : Position) (n : ℚ)
    (hready : env.ready = true)
    (hsig : signal = "BUY_CALL" ∨ signal = "BUY_PUT")
    (hn : env.cache NIFTY_TOKEN = some n) (hn0 : n ≠ 0)
    (hpos : op = some pos)
    (hlast : ls = some pos.signal)
    (hcase : signal = pos.signal ∨ env.cache pos.token = none ∨
      env.cache pos.token = some 0) :
    webhook env signal ⟨op, ls⟩ km log calls =
      (.alreadyRunning, ⟨op, ls⟩, km, log, calls) := by
  subst hpos hlast
  have hflip : flip_step env.cache env.quote env.ledgerOk signal
      ⟨some pos, some pos.signal⟩ log = .ok (some pos) log := by
    unfold flip_step
    dsimp only
    rcases hcase with hs | hc | hc
    · rw [if_neg (show ¬some signal ≠ some pos.signal by simp [hs])]
    · by_cases hs : some signal ≠ some pos.signal
      · rw [if_pos hs, hc]
      · rw [if_neg hs]
    · by_cases hs : some signal ≠ some pos.signal
      · rw [if_pos hs, hc]
        dsimp only
        rw [if_pos rfl]
      · rw [if_neg hs]
  unfold webhook
  rw [hready]
  rw [if_neg (show ¬(true : Bool) = false by simp)]
  rw [if_neg (not_not_intro hsig)]
  rw [hn]
  dsimp only
  rw [if_neg hn0, hflip]

/-- Witness for C4: a same-direction repeat signal while the sample
position is open yields `AlreadyRunning` and leaves all state unchanged. -/
theorem c4_already_running_witness :
    webhook sampleEnv "BUY_CALL" ⟨some samplePos, some "BUY_CALL"⟩
        ⟨true, []⟩ [] [] =
      (.alreadyRunning, ⟨some samplePos, some "BUY_CALL"⟩, ⟨true, []⟩, [], []) :=
  c4_already_running sampleEnv "BUY_CALL" (some samplePos) (some "BUY_CALL")
    ⟨true, []⟩ [] [] samplePos 24000 rfl (Or.inl rfl) rfl (by norm_num)
    rfl rfl (Or.inl rfl)

/-- C9: whenever contract selection succeeds on underlying price `u` and
option kind `k`, the selected strike is `u` rounded to the nearest
multiple of 50 (a multiple of 50 at minimal distance from `u`), and the
selected contract is a loaded contract with that strike and kind whose
expiry is minimal among loaded contracts with that strike and kind
expiring on or after the current date. -/
theorem c9_selection (insts : List Contract) (today : ℕ) (u : ℚ) (k : String)
    (res : OptionSel)
    (h : get_nearest_option (some insts) today u k = .ok res) :
    ((50 : ℤ) ∣ res.strike ∧
      ∀ m : ℤ, |(res.strike : ℚ) - u| ≤ |((50 * m : ℤ) : ℚ) - u|) ∧
    ∃ c ∈ insts, today ≤ c.expiry ∧ c.strike = (res.strike : ℚ) ∧
      c.instrument_type = k ∧ res.token = c.instrument_token ∧
      res.symbol = c.tradingsymbol ∧ res.lot_size = c.lot_size ∧
      ∀ d ∈ insts, today ≤ d.expiry → d.strike = (res.strike : ℚ) →
        d.instrument_type = k → c.expiry ≤ d.expiry := by
  unfold get_nearest_option at h
  dsimp only at h
  set df := insts.filter (fun c =>
    decide (today ≤ c.expiry) &&
    decide (c.strike = ((pyRound (u / 50) * 50 : ℤ) : ℚ)) &&
    decide (c.instrument_type = k)) with hdf
  cases hsort : df.insertionSort (fun a b => a.expiry ≤ b.expiry) with
  | nil =>
    rw [hsort] at h
    exact absurd h (by simp)
  | cons opt rest =>
    rw [hsort] at h
    dsimp only at h
    have hres : res = ⟨opt.instrument_token, opt.tradingsymbol,
        pyRound (u / 50) * 50, k, opt.lot_size⟩ := by
      cases h
      rfl
    obtain ⟨hmem, hmin⟩ := sorted_head_min_expiry df opt rest hsort
    rw [hdf] at hmem
    obtain ⟨hopt_mem, hc⟩ := List.mem_filter.mp hmem
    simp only [Bool.and_eq_true, decide_eq_true_eq] at hc
    obtain ⟨⟨hc1, hc2⟩, hc3⟩ := hc
    constructor
    · constructor
      · exact ⟨pyRound (u / 50), by rw [hres]; exact mul_comm _ _⟩
      · intro m
        rw [hres]
        have key := pyRound_nearest (u / 50) m
        have h50 : (0 : ℚ) < 50 := by norm_num
        calc |((pyRound (u / 50) * 50 : ℤ) : ℚ) - u|
            = |(50 : ℚ)| * |(pyRound (u / 50) : ℚ) - u / 50| := by
              rw [← abs_mul]
              congr 1
              push_cast
              ring
          _ ≤ |(50 : ℚ)| * |(m : ℚ) - u / 50| := by
              apply mul_le_mul_of_nonneg_left key (abs_nonneg _)
          _ = |((50 * m : ℤ) : ℚ) - u| := by
              rw [← abs_mul]
              congr 1
              push_cast
              ring
    · refine ⟨opt, hopt_mem, hc1, by rw [hres]; exact hc2, hc3,
        by rw [hres], by rw [hres], by rw [hres], ?_⟩
      intro d hd hde hds hdt
      apply hmin
      rw [hdf]
      apply List.mem_filter.mpr
      refine ⟨hd, ?_⟩
      simp only [Bool.and_eq_true, decide_eq_true_eq]
      rw [hres] at hds
      exact ⟨⟨hde, hds⟩, hdt⟩

/-- `round(24000 / 50)` evaluates to 480. -/
theorem pyRound_sample : pyRound ((24000 : ℚ) / 50) = 480 := by
  have h : ((24000 : ℚ) / 50) = ((480 : ℤ) : ℚ) := by norm_num
  rw [h]
  unfold pyRound
  rw [Int.floor_intCast (α := ℚ) 480]
  rw [if_neg (show ¬((480 : ℤ) : ℚ) - ((480 : ℤ) : ℚ) = 1 / 2 by norm_num)]
  have : ⌊((480 : ℤ) : ℚ) + 1 / 2⌋ = 480 := by
    rw [Int.floor_eq_iff]
    constructor
    · push_cast
      norm_num
    · push_cast
      norm_num
  exact this

/-- Evaluation of contract selection on the sample instrument table at
underlying price 24000: both contracts match strike 24000 and kind CE,
and the one expiring earlier (day 110) is selected. -/
theorem get_nearest_sample_eval :
    get_nearest_option (some sampleInsts) 100 (24000 : ℚ) "CE" = .ok sampleSel := by
  unfold get_nearest_option
  dsimp only
  simp only [pyRound_sample]
  norm_num [sampleInsts, sampleContractA, sampleContractB, List.filter,
    List.insertionSort, List.orderedInsert, sampleSel]

/-- Witness for C9: the selection on the sample table satisfies the
nearest-strike and earliest-expiry properties. -/
theorem c9_selection_witness :
    ((50 : ℤ) ∣ sampleSel.strike ∧
      ∀ m : ℤ, |(sampleSel.strike : ℚ) - 24000| ≤ |((50 * m : ℤ) : ℚ) - 24000|) ∧
    ∃ c ∈ sampleInsts, 100 ≤ c.expiry ∧ c.strike = (sampleSel.strike : ℚ) ∧
      c.instrument_type = "CE" ∧ sampleSel.token = c.instrument_token ∧
      sampleSel.symbol = c.tradingsymbol ∧ sampleSel.lot_size = c.lot_size ∧
      ∀ d ∈ sampleInsts, 100 ≤ d.expiry → d.strike = (sampleSel.strike : ℚ) →
        d.instrument_type = "CE" → c.expiry ≤ d.expiry :=
  c9_selection sampleInsts 100 24000 "CE" sampleSel get_nearest_sample_eval

/-- C7: whenever the webhook reaches the margin quote and the quote
service cannot answer (`get_option_margin` returns no value), the call
fails with `MarginUnavailable` and leaves no partial state: no position
is stored, no entry row is appended to the ledger, and the last-signal
value is unchanged. -/
theorem c7_margin_unavailable (env : WebhookEnv) (signal : String)
    (st : TradeState) (km : KMState) (log log1 : List LedgerEvent)
    (calls : List (List ℕ)) (n ep : ℚ) (opt : OptionSel)
    (hready : env.ready = true)
    (hsig : signal = "BUY_CALL" ∨ signal = "BUY_PUT")
    (hn : env.cache NIFTY_TOKEN = some n) (hn0 : n ≠ 0)
    (hflip : flip_step env.cache env.quote env.ledgerOk signal st log = .ok none log1)
    (hopt : get_nearest_option env.instruments env.today n
      (if signal = "BUY_CALL" then "CE" else "PE") = .ok opt)
    (hpoll : price_poll env.reads 0 30 = some ep)
    (hq : env.quote opt.symbol ep opt.lot_size = none) :
    webhook env signal st km log calls =
      (.marginUnavailable, { st with open_position := none },
        (km_subscribe km opt.token calls).1, log1,
        (km_subscribe km opt.token calls).2) ∧
    log1.filter LedgerEvent.isEntryRow = log.filter LedgerEvent.isEntryRow ∧
    ({ st with open_position := none } : TradeState).last_signal =
      st.last_signal := by
  refine ⟨?_, ?_, rfl⟩
  · unfold webhook
    rw [hready]
    rw [if_neg (show ¬(true : Bool) = false by simp)]
    rw [if_neg (not_not_intro hsig)]
    rw [hn]
    dsimp only
    rw [if_neg hn0, hflip]
    dsimp only
    rw [hopt]
    dsimp only
    rw [hpoll]
    dsimp only
    rw [hq]
  · have h := flip_step_entryRows env.cache env.quote env.ledgerOk signal st log
    rw [hflip] at h
    exact h

/-- Witness for C7: with no open position, the sample environment (whose
quote service always fails) reaches the margin quote and aborts with
`MarginUnavailable`, leaving no position, no entry row, and the last
signal unchanged. -/
theorem c7_margin_unavailable_witness :
    webhook sampleEnv "BUY_CALL" ⟨none, none⟩ ⟨true, []⟩ [] [] =
      (.marginUnavailable, ⟨none, none⟩,
        (km_subscribe ⟨true, []⟩ sampleSel.token []).1, [],
        (km_subscribe ⟨true, []⟩ sampleSel.token []).2) ∧
    List.filter LedgerEvent.isEntryRow [] = List.filter LedgerEvent.isEntryRow [] ∧
    (⟨none, none⟩ : TradeState).last_signal =
      (⟨none, (none : Option String)⟩ : TradeState).last_signal :=
  c7_margin_unavailable sampleEnv "BUY_CALL" ⟨none, none⟩ ⟨true, []⟩ [] [] []
    24000 100 sampleSel rfl (Or.inl rfl) rfl (by norm_num) rfl
    get_nearest_sample_eval rfl rfl

/-- The sample environment with the instrument table still unloaded
(`instruments = None`). -/
def sampleEnvNoInsts : WebhookEnv := { sampleEnv with instruments := none }

/-- The sample environment whose only loaded contract has a strike that
cannot match the computed ATM strike. -/
def sampleEnvNoMatch : WebhookEnv :=
  { sampleEnv with instruments := some [{ sampleContractA with strike := 100 }] }

/-- Evaluation: contract selection with an unloaded instrument table
raises (`TypeError` on filtering `None`). -/
theorem get_nearest_none_eval :
    get_nearest_option none 100 (24000 : ℚ) "CE" = .error () := rfl

/-- Evaluation: contract selection raises (`IndexError` on `iloc[0]`)
when no loaded contract matches the computed strike and kind. -/
theorem get_nearest_nomatch_eval :
    get_nearest_option (some [{ sampleContractA with strike := 100 }]) 100
      (24000 : ℚ) "CE" = .error () := by
  unfold get_nearest_option
  dsimp only
  simp only [pyRound_sample]
  norm_num [sampleContractA, List.filter, List.insertionSort]

/-- C10: there are webhook calls that pass the readiness, signal-validity
and underlying-price checks and still end in an unhandled exception
rather than a typed failure: with the instrument table not yet loaded, or
with no loaded contract matching the computed strike and kind, contract
selection raises and the handler propagates it. -/
theorem c10_selection_raises :
    sampleEnvNoInsts.ready = true ∧ sampleEnvNoMatch.ready = true ∧
    sampleEnvNoInsts.cache NIFTY_TOKEN = some 24000 ∧
    sampleEnvNoMatch.cache NIFTY_TOKEN = some 24000 ∧
    (webhook sampleEnvNoInsts "BUY_CALL" ⟨none, none⟩ ⟨true, []⟩ [] []).1 =
      .raised ∧
    (webhook sampleEnvNoMatch "BUY_CALL" ⟨none, none⟩ ⟨true, []⟩ [] []).1 =
      .raised := by
  refine ⟨rfl, rfl, rfl, rfl, ?_, ?_⟩
  · unfold webhook
    rw [if_neg (show ¬sampleEnvNoInsts.ready = false by simp [sampleEnvNoInsts, sampleEnv])]
    rw [if_neg (not_not_intro (Or.inl rfl))]
    rw [show sampleEnvNoInsts.cache NIFTY_TOKEN = some 24000 from rfl]
    dsimp only
    rw [if_neg (show ¬(24000 : ℚ) = 0 by norm_num)]
    rfl
  · unfold webhook
    rw [if_neg (show ¬sampleEnvNoMatch.ready = false by simp [sampleEnvNoMatch, sampleEnv])]
    rw [if_neg (not_not_intro (Or.inl rfl))]
    rw [show sampleEnvNoMatch.cache NIFTY_TOKEN = some 24000 from rfl]
    dsimp only
    rw [if_neg (show ¬(24000 : ℚ) = 0 by norm_num)]
    rw [show flip_step sampleEnvNoMatch.cache sampleEnvNoMatch.quote
      sampleEnvNoMatch.ledgerOk "BUY_CALL" ⟨none, none⟩ [] = .ok none [] from rfl]
    dsimp only
    rw [show sampleEnvNoMatch.instruments =
      some [{ sampleContractA with strike := 100 }] from rfl]
    rw [show (if ("BUY_CALL" : String) = "BUY_CALL" then "CE" else "PE") = "CE"
      from rfl]
    rw [show sampleEnvNoMatch.today = 100 from rfl]
    rw [get_nearest_nomatch_eval]

/-- Every action recorded by the entry-price poll carries the
lock-held flag. -/
theorem poll_trace_lock_flag (reads : ℕ → Option ℚ) :
    ∀ fuel i, ∀ e ∈ poll_trace reads i fuel, e.2 = true := by
  intro fuel
  induction fuel with
  | zero =>
    intro i e he
    simp [poll_trace] at he
  | succ f ih =>
    intro i e he
    rw [poll_trace] at he
    rcases hr : reads i with _ | p
    · rw [hr] at he
      dsimp only at he
      rcases List.mem_cons.mp he with rfl | he1
      · rfl
      rcases List.mem_cons.mp he1 with rfl | he2
      · rfl
      exact ih (i + 1) e he2
    · rw [hr] at he
      dsimp only at he
      by_cases h0 : p = 0
      · rw [if_pos h0] at he
        rcases List.mem_cons.mp he with rfl | he1
        · rfl
        rcases List.mem_cons.mp he1 with rfl | he2
        · rfl
        exact ih (i + 1) e he2
      · rw [if_neg h0] at he
        rcases List.mem_cons.mp he with rfl | he1
        · rfl
        simp at he1

/-- Every action inside the `with lock:` block of the webhook carries the
lock-held flag. -/
theorem webhook_locked_trace_lock_flag (env : WebhookEnv) (signal : String)
    (st : TradeState) (log : List LedgerEvent) :
    ∀ e ∈ webhook_locked_trace env signal st log, e.2 = true := by
  intro e he
  unfold webhook_locked_trace at he
  rcases List.mem_cons.mp he with rfl | he
  · rfl
  rcases hn : env.cache NIFTY_TOKEN with _ | n
  · rw [hn] at he
    simp at he
  rw [hn] at he
  dsimp only at he
  by_cases h0 : n = 0
  · rw [if_pos h0] at he
    simp at he
  rw [if_neg h0] at he
  rcases List.mem_cons.mp he with rfl | he
  · rfl
  cases hf : flip_step env.cache env.quote env.ledgerOk signal st log with
  | raised pos' log' =>
    rw [hf] at he
    simp at he
  | ok pos' log' =>
    rw [hf] at he
    dsimp only at he
    cases pos' with
    | some p =>
      simp at he
    | none =>
      rcases List.mem_cons.mp he with rfl | he
      · rfl
      cases hsel : get_nearest_option env.instruments env.today n
          (if signal = "BUY_CALL" then "CE" else "PE") with
      | error u =>
        rw [hsel] at he
        simp at he
      | ok opt =>
        rw [hsel] at he
        dsimp only at he
        rcases List.mem_cons.mp he with rfl | he
        · rfl
        rcases List.mem_append.mp he with hp | hm
        · exact poll_trace_lock_flag env.reads 30 0 e hp
        cases hpoll : price_poll env.reads 0 30 with
        | none =>
          rw [hpoll] at hm
          simp at hm
        | some ep =>
          rw [hpoll] at hm
          dsimp only at hm
          rcases List.mem_cons.mp hm with rfl | hm
          · rfl
          cases hq : env.quote opt.symbol ep opt.lot_size with
          | none =>
            rw [hq] at hm
            simp at hm
          | some m =>
            rw [hq] at hm
            dsimp only at hm
            by_cases hm0 : m = 0
            · rw [if_pos hm0] at hm
              simp at hm
            rw [if_neg hm0] at hm
            by_cases hent : env.entryOk = false
            · rw [if_pos hent] at hm
              rcases List.mem_cons.mp hm with rfl | hm
              · rfl
              simp at hm
            · rw [if_neg hent] at hm
              rcases List.mem_cons.mp hm with rfl | hm
              · rfl
              rcases List.mem_cons.mp hm with rfl | hm
              · rfl
              simp at hm

/-- Evaluation of the webhook's lock trace in the sample environment:
the first two poll reads find no price, so the poll sleeps twice inside
the `with lock:` block; the quote then fails and the handler returns. -/
theorem webhook_trace_sample_eval :
    webhook_trace sampleEnv "BUY_CALL" ⟨none, none⟩ [] =
      [("check_ready", false), ("check_signal", false), ("acquire_lock", true),
       ("read_nifty", true), ("flip_handling", true), ("select_option", true),
       ("subscribe", true), ("poll_read", true), ("poll_sleep", true),
       ("poll_read", true), ("poll_sleep", true), ("poll_read", true),
       ("quote_margin", true), ("release_lock", true)] := by
  unfold webhook_trace
  rw [if_neg (show ¬sampleEnv.ready = false by simp [sampleEnv])]
  rw [if_neg (not_not_intro (Or.inl rfl))]
  unfold webhook_locked_trace
  rw [show sampleEnv.cache NIFTY_TOKEN = some 24000 from rfl]
  dsimp only
  rw [if_neg (show ¬(24000 : ℚ) = 0 by norm_num)]
  rw [show flip_step sampleEnv.cache sampleEnv.quote sampleEnv.ledgerOk
    "BUY_CALL" ⟨none, none⟩ [] = .ok none [] from rfl]
  dsimp only
  rw [show sampleEnv.instruments = some sampleInsts from rfl]
  rw [show (if ("BUY_CALL" : String) = "BUY_CALL" then "CE" else "PE") = "CE"
    from rfl]
  rw [show sampleEnv.today = 100 from rfl]
  rw [get_nearest_sample_eval]
  dsimp only
  rw [show price_poll sampleEnv.reads 0 30 = some 100 from rfl]
  dsimp only
  rw [show sampleEnv.quote sampleSel.symbol 100 sampleSel.lot_size = none
    from rfl]
  rw [show poll_trace sampleEnv.reads 0 30 =
    [("poll_read", true), ("poll_sleep", true), ("poll_read", true),
     ("poll_sleep", true), ("poll_read", true)] from rfl]
  simp

/-- C6 as stated is false on the code: the entire webhook body, including
the `time.sleep(0.1)` calls of the bounded entry-price poll, runs inside
the `with lock:` block — at a concrete call whose poll sleeps, the sleep
actions carry the lock-held flag, and no sleep without the lock occurs. -/
theorem c6_counterexample :
    ("poll_sleep", true) ∈ webhook_trace sampleEnv "BUY_CALL" ⟨none, none⟩ [] ∧
    ("poll_sleep", false) ∉ webhook_trace sampleEnv "BUY_CALL" ⟨none, none⟩ [] := by
  rw [webhook_trace_sample_eval]
  constructor
  · decide
  · decide

/-- C6 (amended): the shared position lock IS held while the entry-price
poll sleeps — every poll-sleep action in any webhook trace carries the
lock-held flag; the lock is never released mid-operation. -/
theorem c6_poll_sleeps_under_lock (env : WebhookEnv) (signal : String)
    (st : TradeState) (log : List LedgerEvent) (e : String × Bool)
    (he : e ∈ webhook_trace env signal st log) (hs : e.1 = "poll_sleep") :
    e.2 = true := by
  unfold webhook_trace at he
  by_cases h1 : env.ready = false
  · rw [if_pos h1] at he
    rcases List.mem_cons.mp he with rfl | he
    · simp at hs
    · simp at he
  rw [if_neg h1] at he
  by_cases h2 : ¬(signal = "BUY_CALL" ∨ signal = "BUY_PUT")
  · rw [if_pos h2] at he
    rcases List.mem_cons.mp he with rfl | he
    · simp at hs
    rcases List.mem_cons.mp he with rfl | he
    · simp at hs
    simp at he
  rw [if_neg h2] at he
  rcases List.mem_cons.mp he with rfl | he
  · simp at hs
  rcases List.mem_cons.mp he with rfl | he
  · simp at hs
  rcases List.mem_cons.mp he with rfl | he
  · rfl
  rcases List.mem_append.mp he with he | he
  · exact webhook_locked_trace_lock_flag env signal st log e he
  · rcases List.mem_singleton.mp he with rfl
    rfl

/-- Witness for C6 (amended): a concrete poll-sleep action of the sample
trace, shown to carry the lock-held flag by the theorem. -/
theorem c6_poll_sleeps_under_lock_witness :
    (("poll_sleep", true) : String × Bool) ∈
      webhook_trace sampleEnv "BUY_CALL" ⟨none, none⟩ [] ∧
    (("poll_sleep", true) : String × Bool).2 = true :=
  ⟨by rw [webhook_trace_sample_eval]; decide,
   c6_poll_sleeps_under_lock sampleEnv "BUY_CALL" ⟨none, none⟩ []
     ("poll_sleep", true)
     (by rw [webhook_trace_sample_eval]; decide) rfl⟩

end GodsEye
